import Mathlib

/-!
Verification development for the economic-dashboard core: the price-move
calculator and history attachment of `src/fetch_nfp_moves.py`, together with
the speech-to-release-window correlator of `src/app.py` (`nfp_page`).

Modelling conventions:
* Python dictionaries become association lists with unique keys; `dictLookup`
  is `dict.__contains__` and subscript access combined.
* Intraday observations are modelled by their close price (the only field the
  code reads is the close field) as a rational number; all prices and pip
  values are rationals.
* Python `round(x, 1)` on these exact decimal values is modelled by
  `round1`, rounding half to even, as Python rounds.
* Timestamp strings are built exactly as the source builds them with
  f-strings, via `pad2` and `mkTime`; dates are compared as strings just as
  the source compares them.
-/

set_option maxHeartbeats 1000000
set_option maxRecDepth 10000

namespace EconDashboard

/-- Zero-padded two-digit rendering of a natural number, matching the 02d
format specifier applied to the nonnegative numbers in time strings. -/
def pad2 (n : Nat) : String :=
  if n < 10 then "0" ++ toString n else toString n

/-- The timestamp string the source builds: date, space, two-digit hour,
colon, two-digit minute, and a ":00" seconds suffix. -/
def mkTime (d : String) (h m : Nat) : String :=
  d ++ " " ++ pad2 h ++ ":" ++ pad2 m ++ ":00"

/-- Python dict lookup, modelled on an association list with unique keys. -/
def dictLookup {α : Type} : List (String × α) → String → Option α
  | [], _ => none
  | (k, v) :: rest, t => if k = t then some v else dictLookup rest t

/-- One unrolling of the nearby-timestamp fallback loop in
`calculate_nfp_move`: ten iterations, each of which sets `check_time` to the
very same `time_str` and rechecks it. The loop counter is the fuel. -/
def fallbackLoop (series : List (String × ℚ)) (t : String) : Nat → Option ℚ
  | 0 => none
  | n + 1 =>
    match dictLookup series t with
    | some p => some p
    | none => fallbackLoop series t n

/-- The full price lookup of `calculate_nfp_move`: exact match first, then
the "search nearby timestamps" fallback loop with ten iterations. -/
def fallbackLookup (series : List (String × ℚ)) (t : String) : Option ℚ :=
  match dictLookup series t with
  | some p => some p
  | none => fallbackLoop series t 10

/-- The `times_to_check` table of `calculate_nfp_move`, in declared order.
The 5min and 15min entries add to the minute field with no carry; only the
30min entry divides by 60; the 1h entry adds one to the hour field. -/
def times_to_check (nfp_date : String) (release_hour release_minute : Nat) :
    List (String × String) :=
  [("release", mkTime nfp_date release_hour release_minute),
   ("5min_after", mkTime nfp_date release_hour (release_minute + 5)),
   ("15min_after", mkTime nfp_date release_hour (release_minute + 15)),
   ("30min_after", mkTime nfp_date (release_hour + (release_minute + 30) / 60)
      ((release_minute + 30) % 60)),
   ("1h_after", mkTime nfp_date (release_hour + 1) release_minute)]

/-- The `prices` dict built by `calculate_nfp_move`: for each label in
declared order, the resolved close price, when the lookup (with its fallback)
succeeds. -/
def prices (series : List (String × ℚ)) (nfp_date : String)
    (release_hour release_minute : Nat) : List (String × ℚ) :=
  (times_to_check nfp_date release_hour release_minute).filterMap
    (fun lt => (fallbackLookup series lt.2).map (fun p => (lt.1, p)))

/-- One entry of the `moves` dict: close price at the offset and the pip
move relative to the release price. -/
structure MoveEntry where
  price : ℚ
  pips : ℚ
deriving DecidableEq

/-- The result dict of `calculate_nfp_move`: `release_price` and `moves`
always present, `max_move` present only when at least one offset resolved
(modelled as an `Option`). -/
structure PriceMoveResult where
  release_price : ℚ
  moves : List (String × MoveEntry)
  max_move : Option ℚ
deriving DecidableEq

/-- Round to the nearest integer, ties to even, as Python `round` does on
the exact decimal values arising here. -/
def roundHalfEven (x : ℚ) : ℤ :=
  if x - Int.floor x < 1/2 then Int.floor x
  else if 1/2 < x - Int.floor x then Int.floor x + 1
  else if Int.floor x % 2 = 0 then Int.floor x else Int.floor x + 1

/-- Python `round(x, 1)`. -/
def round1 (x : ℚ) : ℚ := (roundHalfEven (x * 10) : ℚ) / 10

/-- Python `max(key=abs)` over a nonempty prefix-element-plus-rest: keeps the
earlier element on ties, replaces only on a strictly larger absolute value. -/
def foldMaxAbs (x : ℚ) (xs : List ℚ) : ℚ :=
  xs.foldl (fun acc y => if |acc| < |y| then y else acc) x

/-- `max(all_pips, key=abs)` on a possibly empty list: `none` for the empty
list (the source then leaves the `max_move` key absent). -/
def maxByAbs : List ℚ → Option ℚ
  | [] => none
  | x :: xs => some (foldMaxAbs x xs)

/-- The loop over `prices.items()` skipping the release label: each resolved
offset keeps its price and the pip move, hard-coded factor 100, rounded to
one decimal. -/
def movesFrom (prs : List (String × ℚ)) (release_price : ℚ) :
    List (String × MoveEntry) :=
  prs.filterMap (fun lp =>
    if lp.1 = "release" then none
    else some (lp.1, MoveEntry.mk lp.2 (round1 ((lp.2 - release_price) * 100))))

/-- `calculate_nfp_move` of `src/fetch_nfp_moves.py`: resolve the five
timestamps, fail with `none` when the release timestamp did not resolve,
otherwise record each non-release resolved offset with its pip move and the
maximum-magnitude move when any offset resolved. -/
def calculate_nfp_move (intraday_data : List (String × ℚ)) (nfp_date : String)
    (release_hour : Nat := 13) (release_minute : Nat := 30) :
    Option PriceMoveResult :=
  match dictLookup (prices intraday_data nfp_date release_hour release_minute)
      "release" with
  | none => none
  | some release_price =>
    some (PriceMoveResult.mk release_price
      (movesFrom (prices intraday_data nfp_date release_hour release_minute)
        release_price)
      (maxByAbs ((movesFrom (prices intraday_data nfp_date release_hour release_minute)
        release_price).map (fun m => m.2.pips))))

/-- The `prices` dict under exact-match-only lookup semantics, the variant
the specification compares the fallback against. -/
def pricesExact (series : List (String × ℚ)) (nfp_date : String)
    (release_hour release_minute : Nat) : List (String × ℚ) :=
  (times_to_check nfp_date release_hour release_minute).filterMap
    (fun lt => (dictLookup series lt.2).map (fun p => (lt.1, p)))

/-- `calculate_nfp_move` with the fallback loop removed: exact-match-only
lookup, otherwise identical. -/
def calculate_nfp_move_exact (intraday_data : List (String × ℚ))
    (nfp_date : String) (release_hour : Nat := 13) (release_minute : Nat := 30) :
    Option PriceMoveResult :=
  match dictLookup (pricesExact intraday_data nfp_date release_hour release_minute)
      "release" with
  | none => none
  | some release_price =>
    some (PriceMoveResult.mk release_price
      (movesFrom (pricesExact intraday_data nfp_date release_hour release_minute)
        release_price)
      (maxByAbs ((movesFrom (pricesExact intraday_data nfp_date release_hour release_minute)
        release_price).map (fun m => m.2.pips))))

/-- A commentary entry of the `fed_speeches` log, as read by `nfp_page` and
appended by the `add_fed_speech` route. Only `date` is inspected by the
correlator. -/
structure Speech where
  date : String
  official : String
  summary : String
  stance : String
deriving DecidableEq

/-- One jobs-report schedule entry: release date and the reference month it
describes. -/
structure NfpEntry where
  date : String
  month : String
deriving DecidableEq

/-- The schedule scan of `nfp_page`: first entry whose reference month is the
target, together with the date of the immediately preceding entry by
position (`None` at position zero). The accumulator carries the previous
entry date. -/
def findSched : List NfpEntry → Option String → String → Option (NfpEntry × Option String)
  | [], _, _ => none
  | e :: rest, prev, month =>
    if e.month = month then some (e, prev) else findSched rest (some e.date) month

/-- The related-speeches block of `nfp_page`: when the schedule entry was
found and a truthy previous date exists, keep exactly the speeches dated
inside the inclusive window, in the original order of the log. The guard
`if nfp_schedule and prev_nfp_date` makes an empty previous-date string
falsy, exactly as in Python. -/
def related_speeches (schedule : List NfpEntry) (fed_speeches : List Speech)
    (month : String) : List Speech :=
  match findSched schedule none month with
  | none => []
  | some (_nfp, none) => []
  | some (nfp, some pd) =>
    if pd = "" then []
    else fed_speeches.filter (fun s => decide (pd ≤ s.date ∧ s.date ≤ nfp.date))

/-- The fixed 2026 jobs-report schedule of `src/app.py`. -/
def SCHEDULE_2026_nfp : List NfpEntry :=
  [⟨"2026-01-09", "2025-12"⟩, ⟨"2026-02-11", "2026-01"⟩, ⟨"2026-03-06", "2026-02"⟩,
   ⟨"2026-04-03", "2026-03"⟩, ⟨"2026-05-01", "2026-04"⟩, ⟨"2026-06-05", "2026-05"⟩,
   ⟨"2026-07-02", "2026-06"⟩, ⟨"2026-08-07", "2026-07"⟩, ⟨"2026-09-04", "2026-08"⟩,
   ⟨"2026-10-02", "2026-09"⟩, ⟨"2026-11-06", "2026-10"⟩, ⟨"2026-12-04", "2026-11"⟩]

/-- One record of `nfp_history.json`, keyed by reference month. -/
structure ReleaseRecord where
  forecast : Option ℚ
  actual : Option ℚ
  prev : Option ℚ
  market_reaction : Option String
  notes : String
  price_moves : Option PriceMoveResult
deriving DecidableEq

/-- `history[month]["price_moves"] = pm`: overwrite that one field of the
record stored under `month`, leaving every other binding unchanged. -/
def setPriceMoves (history : List (String × ReleaseRecord)) (month : String)
    (pm : PriceMoveResult) : List (String × ReleaseRecord) :=
  history.map (fun kr =>
    if kr.1 = month then (kr.1, { kr.2 with price_moves := some pm }) else kr)

/-- The history-update step of `update_nfp_with_moves` (the fetch and the
computation having already produced `moves`): write the result under the
target month and report success when the key exists, otherwise report
failure and perform no write at all. -/
def update_nfp_with_moves (history : List (String × ReleaseRecord))
    (target_month : String) (moves : PriceMoveResult) :
    Bool × List (String × ReleaseRecord) :=
  if (dictLookup history target_month).isSome then
    (true, setPriceMoves history target_month moves)
  else (false, history)

/-- `add_manual_price_moves`: same key guard; on success stores a result
whose `max_move` is the maximum-magnitude pip value, or `0` when
`moves_data` is empty (here the key is always written, unlike in
`calculate_nfp_move`). -/
def add_manual_price_moves (history : List (String × ReleaseRecord))
    (month : String) (release_price : ℚ) (moves_data : List (String × MoveEntry)) :
    Bool × List (String × ReleaseRecord) :=
  if (dictLookup history month).isSome then
    let all_pips := moves_data.map (fun m => m.2.pips)
    (true, setPriceMoves history month
      (PriceMoveResult.mk release_price moves_data (some ((maxByAbs all_pips).getD 0))))
  else (false, history)

/-- The target-month derivation of `update_nfp_with_moves`, from the parsed
year and month of the release date: December of the previous year when the
release month is January, otherwise the previous month of the same year. -/
def target_month (year month : Nat) : String :=
  if month = 1 then toString (year - 1) ++ "-12"
  else toString year ++ "-" ++ pad2 (month - 1)

/-- Modelled from the spec: the calendar month immediately preceding the
month of the release date, as a year-month pair. Used only to compare the
string-building derivation of the source against plain calendar arithmetic. -/
def prevCalendarMonth (year month : Nat) : Nat × Nat :=
  if month = 1 then (year - 1, 12) else (year, month - 1)

/-- Modelled from the spec: the pip formula with the scale factor as an
explicit parameter, the form the specification requires. Used to compare
the hard-coded factor of the source against a configurable one. -/
def pipsWithScale (scale price release_price : ℚ) : ℚ :=
  round1 ((price - release_price) * scale)

/-- Proper minute addition on an hour-minute pair, carrying into the hour. -/
def timeAdd (h m k : Nat) : Nat × Nat := (h + (m + k) / 60, (m + k) % 60)

/-- An hour-minute pair denotes a valid time of day. -/
def validPair (p : Nat × Nat) : Prop := p.1 ≤ 23 ∧ p.2 ≤ 59

instance validPair.decidable (p : Nat × Nat) : Decidable (validPair p) :=
  inferInstanceAs (Decidable (p.1 ≤ 23 ∧ p.2 ≤ 59))

/-- The hour-minute pairs underlying `times_to_check`, in declared order. -/
def offsetPairs (release_hour release_minute : Nat) : List (String × (Nat × Nat)) :=
  [("release", (release_hour, release_minute)),
   ("5min_after", (release_hour, release_minute + 5)),
   ("15min_after", (release_hour, release_minute + 15)),
   ("30min_after", (release_hour + (release_minute + 30) / 60,
      (release_minute + 30) % 60)),
   ("1h_after", (release_hour + 1, release_minute))]

/-- The worked example series of the specification (section 8). -/
def exSeries : List (String × ℚ) :=
  [("2026-02-06 13:30:00", 151), ("2026-02-06 13:35:00", 151.5),
   ("2026-02-06 14:00:00", 150.2)]

/-- The result `calculate_nfp_move` produces on `exSeries` at 13:30. -/
def exResult : PriceMoveResult :=
  PriceMoveResult.mk 151
    [("5min_after", MoveEntry.mk 151.5 50), ("30min_after", MoveEntry.mk 150.2 (-80))]
    (some (-80))

/-- A series around a 13:45 release, containing the release bar and the bar
five minutes later. -/
def cSeries : List (String × ℚ) :=
  [("2026-03-06 13:45:00", 150), ("2026-03-06 13:50:00", 150.5)]

/-- A small concrete commentary log straddling the 2026-01 release window. -/
def exSpeeches : List Speech :=
  [⟨"2026-01-05", "Powell", "inflation progress", "hawkish"⟩,
   ⟨"2026-01-09", "Waller", "cuts possible", "dovish"⟩,
   ⟨"2026-02-01", "Williams", "data dependent", "neutral"⟩,
   ⟨"2026-02-11", "Cook", "labor cooling", "neutral"⟩,
   ⟨"2026-02-12", "Powell", "patience", "hawkish"⟩]

/-- A one-record history store, used to exercise the missing-key paths. -/
def exHistory : List (String × ReleaseRecord) :=
  [("2024-01", ReleaseRecord.mk (some 180) (some 216) (some 173)
    (some "USD rally") "" none)]

/-- Evaluation of the calculator on the worked example of the specification:
release at 151, plus 50 pips after five minutes, minus 80 pips after thirty,
maximum-magnitude move minus 80. -/
lemma calc_ex : calculate_nfp_move exSeries "2026-02-06" 13 30 = some exResult := by
  with_unfolding_all decide

/-- The fallback loop returns nothing when the exact lookup already failed,
whatever the remaining fuel. -/
lemma fallbackLoop_none (series : List (String × ℚ)) (t : String)
    (h : dictLookup series t = none) : ∀ n, fallbackLoop series t n = none := by
  intro n
  induction n with
  | zero => rfl
  | succ k ih => rw [fallbackLoop, h]; exact ih

/-- The full lookup with its nearby-timestamp fallback is extensionally the
exact lookup. -/
lemma fallback_eq_dictLookup : ∀ (series : List (String × ℚ)) (t : String),
    fallbackLookup series t = dictLookup series t := by
  intro series t
  rw [fallbackLookup]
  cases h : dictLookup series t with
  | none => simpa [h] using fallbackLoop_none series t h 10
  | some p => rfl

/-- The prices table is insensitive to the fallback. -/
lemma prices_eq_pricesExact (series : List (String × ℚ)) (nfp_date : String)
    (rh rm : Nat) :
    prices series nfp_date rh rm = pricesExact series nfp_date rh rm := by
  simp only [prices, pricesExact, fallback_eq_dictLookup]

/-- When the release timestamp does not resolve, no entry of the prices
table carries the release label. -/
lemma release_not_in_prices (series : List (String × ℚ)) (nfp_date : String)
    (rh rm : Nat) (h : dictLookup series (mkTime nfp_date rh rm) = none) :
    dictLookup (prices series nfp_date rh rm) "release" = none := by
  have h0 : fallbackLookup series (mkTime nfp_date rh rm) = none := by
    rw [fallback_eq_dictLookup, h]
  rw [prices, times_to_check]
  cases h1 : fallbackLookup series (mkTime nfp_date rh (rm + 5)) <;>
    cases h2 : fallbackLookup series (mkTime nfp_date rh (rm + 15)) <;>
      cases h3 : fallbackLookup series
          (mkTime nfp_date (rh + (rm + 30) / 60) ((rm + 30) % 60)) <;>
        cases h4 : fallbackLookup series (mkTime nfp_date (rh + 1) rm) <;>
          simp [h0, h1, h2, h3, h4, dictLookup]

/-- Inversion of a successful calculation: the release price was found in
the prices table and the result is built from `movesFrom` and `maxByAbs`. -/
lemma calc_inv (series : List (String × ℚ)) (nfp_date : String) (rh rm : Nat)
    (r : PriceMoveResult)
    (h : calculate_nfp_move series nfp_date rh rm = some r) :
    ∃ rp, dictLookup (prices series nfp_date rh rm) "release" = some rp ∧
      r = PriceMoveResult.mk rp (movesFrom (prices series nfp_date rh rm) rp)
        (maxByAbs ((movesFrom (prices series nfp_date rh rm) rp).map
          (fun m => m.2.pips))) := by
  rw [calculate_nfp_move] at h
  cases hd : dictLookup (prices series nfp_date rh rm) "release" with
  | none => rw [hd] at h; exact absurd h (by simp)
  | some rp =>
    rw [hd] at h
    refine ⟨rp, rfl, ?_⟩
    injection h with h
    exact h.symm

/-- Unfolding one step of the fold behind `max(key=abs)`. -/
lemma foldMaxAbs_cons (x y : ℚ) (ys : List ℚ) :
    foldMaxAbs x (y :: ys) = foldMaxAbs (if |x| < |y| then y else x) ys := rfl

/-- The left-fold behind `max(key=abs)`: its value occurs in the list, every
element strictly before its occurrence is strictly smaller in absolute
value (so ties keep the earliest element), and every element of the list is
bounded by it in absolute value. -/
lemma foldMaxAbs_spec (xs : List ℚ) : ∀ x : ℚ,
    ∃ l₁ l₂, x :: xs = l₁ ++ foldMaxAbs x xs :: l₂ ∧
      (∀ y ∈ l₁, |y| < |foldMaxAbs x xs|) ∧
      (∀ y ∈ x :: xs, |y| ≤ |foldMaxAbs x xs|) := by
  induction xs with
  | nil =>
    intro x
    exact ⟨[], [], rfl, by simp, by simp [foldMaxAbs]⟩
  | cons y ys ih =>
    intro x
    rw [foldMaxAbs_cons]
    by_cases hxy : |x| < |y|
    · rw [if_pos hxy]
      obtain ⟨l₁, l₂, hdec, hlt, hle⟩ := ih y
      refine ⟨x :: l₁, l₂, by rw [List.cons_append, ← hdec], ?_, ?_⟩
      · intro z hz
        rcases List.mem_cons.1 hz with rfl | hz
        · exact lt_of_lt_of_le hxy (hle y (List.mem_cons_self y ys))
        · exact hlt z hz
      · intro z hz
        rcases List.mem_cons.1 hz with rfl | hz
        · exact le_of_lt (lt_of_lt_of_le hxy (hle y (List.mem_cons_self y ys)))
        · exact hle z hz
    · rw [if_neg hxy]
      obtain ⟨l₁, l₂, hdec, hlt, hle⟩ := ih x
      have hyx : |y| ≤ |x| := le_of_not_lt hxy
      cases l₁ with
      | nil =>
        rw [List.nil_append] at hdec
        injection hdec with hm hys
        refine ⟨[], y :: ys, by rw [← hm]; simp, by simp, ?_⟩
        intro z hz
        rcases List.mem_cons.1 hz with h | h
        · rw [h]; exact hle x (List.mem_cons_self x ys)
        · rcases List.mem_cons.1 h with h2 | h2
          · rw [h2, ← hm]; exact hyx
          · exact hle z (List.mem_cons_of_mem x h2)
      | cons a l₁ =>
        rw [List.cons_append] at hdec
        injection hdec with ha hys
        subst ha
        have hax : |x| < |foldMaxAbs x ys| := hlt x (List.mem_cons_self x l₁)
        refine ⟨x :: y :: l₁, l₂, by rw [List.cons_append, List.cons_append, ← hys], ?_, ?_⟩
        · intro z hz
          rcases List.mem_cons.1 hz with h | h
          · rw [h]; exact hax
          · rcases List.mem_cons.1 h with h2 | h2
            · rw [h2]; exact lt_of_le_of_lt hyx hax
            · exact hlt z (List.mem_cons_of_mem x h2)
        · intro z hz
          rcases List.mem_cons.1 hz with h | h
          · rw [h]; exact hle x (List.mem_cons_self x ys)
          · rcases List.mem_cons.1 h with h2 | h2
            · rw [h2]; exact (lt_of_le_of_lt hyx hax).le
            · exact hle z (List.mem_cons_of_mem x h2)

/-- The scan stops at a head entry whose month matches, returning the
accumulated previous date. -/
lemma findSched_head (a : NfpEntry) (rest : List NfpEntry) (month : String)
    (prev : Option String) (ha : a.month = month) :
    findSched (a :: rest) prev month = some (a, prev) := by
  simp [findSched, ha]

/-- The scan skips a head entry whose month does not match, carrying its
date as the new previous date. -/
lemma findSched_succ (a : NfpEntry) (rest : List NfpEntry) (month : String)
    (prev : Option String) (ha : a.month ≠ month) :
    findSched (a :: rest) prev month = findSched rest (some a.date) month := by
  simp [findSched, ha]

/-- When no schedule entry carries the month, the scan fails. -/
lemma findSched_none (month : String) : ∀ (schedule : List NfpEntry),
    (∀ e ∈ schedule, e.month ≠ month) →
    ∀ prev, findSched schedule prev month = none := by
  intro schedule
  induction schedule with
  | nil => intro _ prev; rfl
  | cons a rest ih =>
    intro h prev
    rw [findSched_succ a rest month prev (h a (List.mem_cons_self a rest))]
    exact ih (fun e he => h e (List.mem_cons_of_mem a he)) (some a.date)

/-- When the first matching month sits at a positive position `i`, the scan
returns that entry together with the date of the entry at position `i - 1`,
whatever previous date was accumulated so far. -/
lemma findSched_at (month : String) : ∀ (schedule : List NfpEntry) (i : Nat)
    (e ep : NfpEntry), schedule[i]? = some e → e.month = month → 0 < i →
    schedule[i - 1]? = some ep →
    (∀ ej ∈ schedule.take i, ej.month ≠ month) →
    ∀ prev, findSched schedule prev month = some (e, some ep.date) := by
  intro schedule
  induction schedule with
  | nil => intro i e ep hi; simp at hi
  | cons a rest ih =>
    intro i e ep hi hm hpos hp hfirst prev
    obtain ⟨k, rfl⟩ : ∃ k, i = k + 1 := ⟨i - 1, (Nat.succ_pred_eq_of_pos hpos).symm⟩
    have ha : a.month ≠ month := by
      apply hfirst
      rw [List.take_succ_cons]
      exact List.mem_cons_self a (rest.take k)
    rw [findSched_succ a rest month prev ha]
    cases k with
    | zero =>
      have hep : a = ep := by simpa using hp
      cases rest with
      | nil => simp at hi
      | cons b r =>
        have hb : b = e := by simpa using hi
        subst hb
        rw [findSched_head b r month (some a.date) hm, hep]
    | succ j =>
      apply ih (j + 1) e ep ?_ hm (Nat.succ_pos j) ?_ ?_
      · simpa using hi
      · simpa using hp
      · intro ej hej
        apply hfirst
        rw [List.take_succ_cons]
        exact List.mem_cons_of_mem a hej

/-- C1: for a target reference month first found in the schedule at position
`i > 0` whose preceding entry has a nonempty date, `related_speeches` is
exactly the filter of the commentary log by the inclusive window between the
preceding release date and the found release date; as a filter of the log it
preserves the original relative order of the log. -/
theorem C1_window_filter (schedule : List NfpEntry) (speeches : List Speech)
    (month : String) (i : Nat) (e ep : NfpEntry)
    (hi : schedule[i]? = some e) (hm : e.month = month) (hpos : 0 < i)
    (hp : schedule[i - 1]? = some ep)
    (hfirst : ∀ ej ∈ schedule.take i, ej.month ≠ month)
    (hdate : ep.date ≠ "") :
    related_speeches schedule speeches month =
      speeches.filter (fun s => decide (ep.date ≤ s.date ∧ s.date ≤ e.date)) := by
  rw [related_speeches, findSched_at month schedule i e ep hi hm hpos hp hfirst none]
  simp [hdate]

/-- Witness for C1 on the fixed 2026 schedule and a small log: the 2026-01
reference month sits at position 1; the window is 2026-01-09 to 2026-02-11
inclusive. -/
theorem C1_window_filter_witness :
    related_speeches SCHEDULE_2026_nfp exSpeeches "2026-01" =
      exSpeeches.filter (fun s =>
        decide ((NfpEntry.mk "2026-01-09" "2025-12").date ≤ s.date ∧
          s.date ≤ (NfpEntry.mk "2026-02-11" "2026-01").date)) :=
  C1_window_filter SCHEDULE_2026_nfp exSpeeches "2026-01" 1
    (NfpEntry.mk "2026-02-11" "2026-01") (NfpEntry.mk "2026-01-09" "2025-12")
    (by decide) (by decide) (by decide) (by decide) (by decide) (by decide)

/-- C2: when the exact release timestamp is not a key of the series,
`calculate_nfp_move` returns `none` (the DataUnavailable failure), never a
result with a missing or zero release price. -/
theorem C2_release_missing (series : List (String × ℚ)) (nfp_date : String)
    (rh rm : Nat) (h : dictLookup series (mkTime nfp_date rh rm) = none) :
    calculate_nfp_move series nfp_date rh rm = none := by
  rw [calculate_nfp_move, release_not_in_prices series nfp_date rh rm h]

/-- Witness for C2: a series with an unrelated key only. -/
theorem C2_release_missing_witness :
    calculate_nfp_move [("2026-02-06 14:00:00", (150 : ℚ))] "2026-02-06" 13 30 = none :=
  C2_release_missing [("2026-02-06 14:00:00", (150 : ℚ))] "2026-02-06" 13 30 (by decide)

/-- C3: whenever the calculation succeeds and at least one offset resolved,
`max_move` is an entry of the pip list whose absolute value bounds every
resolved pip value, and every entry strictly before its occurrence in the
declared-order pip list is strictly smaller in absolute value, so ties keep
the first occurrence in the declared order of the offsets. -/
theorem C3_max_move (series : List (String × ℚ)) (nfp_date : String)
    (rh rm : Nat) (r : PriceMoveResult)
    (h : calculate_nfp_move series nfp_date rh rm = some r)
    (hne : r.moves ≠ []) :
    ∃ m l₁ l₂, r.max_move = some m ∧
      r.moves.map (fun x => x.2.pips) = l₁ ++ m :: l₂ ∧
      (∀ p ∈ l₁, |p| < |m|) ∧
      (∀ p ∈ r.moves.map (fun x => x.2.pips), |p| ≤ |m|) := by
  obtain ⟨rp, hrp, rfl⟩ := calc_inv series nfp_date rh rm r h
  rcases hmv : movesFrom (prices series nfp_date rh rm) rp with _ | ⟨mv, mvs⟩
  · exact absurd hmv hne
  · obtain ⟨l₁, l₂, hdec, hlt, hle⟩ :=
      foldMaxAbs_spec (mvs.map (fun x => x.2.pips)) mv.2.pips
    refine ⟨foldMaxAbs mv.2.pips (mvs.map (fun x : String × MoveEntry => x.2.pips)),
      l₁, l₂, ?_, ?_, hlt, ?_⟩
    · simp [maxByAbs]
    · simpa using hdec
    · simpa using hle

/-- Witness for C3 on the worked example of the specification. -/
theorem C3_max_move_witness :
    ∃ m l₁ l₂, exResult.max_move = some m ∧
      exResult.moves.map (fun x => x.2.pips) = l₁ ++ m :: l₂ ∧
      (∀ p ∈ l₁, |p| < |m|) ∧
      (∀ p ∈ exResult.moves.map (fun x => x.2.pips), |p| ≤ |m|) :=
  C3_max_move exSeries "2026-02-06" 13 30 exResult calc_ex (by with_unfolding_all decide)

/-- C4 (amended): every resolved offset records pips equal to the price
minus the release price, multiplied by the hard-coded factor 100 and rounded
to one decimal; the factor is not a parameter of `calculate_nfp_move`. -/
theorem C4_pips_formula (series : List (String × ℚ)) (nfp_date : String)
    (rh rm : Nat) (r : PriceMoveResult)
    (h : calculate_nfp_move series nfp_date rh rm = some r) :
    ∀ l en, (l, en) ∈ r.moves →
      en.pips = round1 ((en.price - r.release_price) * 100) := by
  obtain ⟨rp, hrp, rfl⟩ := calc_inv series nfp_date rh rm r h
  intro l en hmem
  rw [movesFrom] at hmem
  obtain ⟨lp, hlp, heq⟩ := List.mem_filterMap.1 hmem
  by_cases hrel : lp.1 = "release"
  · rw [if_pos hrel] at heq; exact absurd heq (by simp)
  · rw [if_neg hrel] at heq
    injection heq with heq
    injection heq with h1 h2
    rw [← h2]

/-- Witness for C4 (amended), at the five-minute offset of the worked
example: 50 pips is the rounded value of (151.5 minus 151) times 100. -/
theorem C4_pips_formula_witness :
    (MoveEntry.mk (151.5 : ℚ) 50).pips =
      round1 (((MoveEntry.mk (151.5 : ℚ) 50).price - exResult.release_price) * 100) :=
  C4_pips_formula exSeries "2026-02-06" 13 30 exResult calc_ex "5min_after"
    (MoveEntry.mk (151.5 : ℚ) 50) (by with_unfolding_all decide)

/-- Counterexample for C4 as stated: the pip values the code produces agree
with the parametric spec formula only at scale factor 100 and disagree at
scale factor 10000 on the same input, and `calculate_nfp_move` accepts no
scale parameter at all — the factor is hard-coded, not configurable. -/
theorem C4_pips_formula_counterexample :
    calculate_nfp_move exSeries "2026-02-06" 13 30 = some exResult ∧
    (∀ le ∈ exResult.moves,
      le.2.pips = pipsWithScale 100 le.2.price exResult.release_price) ∧
    ¬ (∀ le ∈ exResult.moves,
      le.2.pips = pipsWithScale 10000 le.2.price exResult.release_price) :=
  ⟨calc_ex, by with_unfolding_all decide, by with_unfolding_all decide⟩

/-- C5: attaching a price-move result under a reference month that is not a
key of the history reports failure and returns the history unchanged, both
for the fetch path and for the manual path. -/
theorem C5_attach_missing (history : List (String × ReleaseRecord))
    (month : String) (pm : PriceMoveResult) (rp : ℚ)
    (md : List (String × MoveEntry))
    (h : dictLookup history month = none) :
    update_nfp_with_moves history month pm = (false, history) ∧
    add_manual_price_moves history month rp md = (false, history) := by
  rw [update_nfp_with_moves, add_manual_price_moves]
  simp [h]

/-- Witness for C5 on a one-record history missing the 2024-03 key. -/
theorem C5_attach_missing_witness :
    update_nfp_with_moves exHistory "2024-03" exResult = (false, exHistory) ∧
    add_manual_price_moves exHistory "2024-03" 146 [] = (false, exHistory) :=
  C5_attach_missing exHistory "2024-03" exResult 146 [] (by decide)

/-- C6: `related_speeches` is empty both when no schedule entry carries the
target month and when the first matching entry sits at position zero. -/
theorem C6_empty_window (schedule : List NfpEntry) (speeches : List Speech)
    (month : String) :
    ((∀ e ∈ schedule, e.month ≠ month) →
      related_speeches schedule speeches month = []) ∧
    (∀ e rest, schedule = e :: rest → e.month = month →
      related_speeches schedule speeches month = []) := by
  constructor
  · intro h
    rw [related_speeches, findSched_none month schedule h none]
  · rintro e rest rfl hm
    rw [related_speeches, findSched_head e rest month none hm]

/-- Witness for C6: an absent month on the fixed schedule, and the
head month 2025-12 at position zero, both yield the empty list. -/
theorem C6_empty_window_witness :
    related_speeches SCHEDULE_2026_nfp exSpeeches "2031-01" = [] ∧
    related_speeches SCHEDULE_2026_nfp exSpeeches "2025-12" = [] :=
  ⟨(C6_empty_window SCHEDULE_2026_nfp exSpeeches "2031-01").1 (by decide),
   (C6_empty_window SCHEDULE_2026_nfp exSpeeches "2025-12").2
     (NfpEntry.mk "2026-01-09" "2025-12") (SCHEDULE_2026_nfp.drop 1) rfl rfl⟩

/-- C7: when the release bar resolves but none of the four offsets do, the
result is produced with the release price, an empty moves table, and no
`max_move` key. -/
theorem C7_no_offsets (series : List (String × ℚ)) (nfp_date : String)
    (rh rm : Nat) (p : ℚ)
    (hrel : dictLookup series (mkTime nfp_date rh rm) = some p)
    (h5 : dictLookup series (mkTime nfp_date rh (rm + 5)) = none)
    (h15 : dictLookup series (mkTime nfp_date rh (rm + 15)) = none)
    (h30 : dictLookup series
      (mkTime nfp_date (rh + (rm + 30) / 60) ((rm + 30) % 60)) = none)
    (h1h : dictLookup series (mkTime nfp_date (rh + 1) rm) = none) :
    calculate_nfp_move series nfp_date rh rm =
      some (PriceMoveResult.mk p [] none) := by
  have hp : prices series nfp_date rh rm = [("release", p)] := by
    rw [prices, times_to_check]
    simp [fallback_eq_dictLookup, hrel, h5, h15, h30, h1h]
  rw [calculate_nfp_move, hp]
  simp [dictLookup, movesFrom, maxByAbs]

/-- Witness for C7: a series holding only the release bar. -/
theorem C7_no_offsets_witness :
    calculate_nfp_move [("2026-02-06 13:30:00", (151 : ℚ))] "2026-02-06" 13 30 =
      some (PriceMoveResult.mk 151 [] none) :=
  C7_no_offsets [("2026-02-06 13:30:00", (151 : ℚ))] "2026-02-06" 13 30 151
    (by decide) (by decide) (by decide) (by decide) (by decide)

/-- C8: the nearby-timestamp fallback is extensionally inert — the lookup
with fallback equals the exact-match lookup on every series and timestamp,
and the whole calculator with the fallback removed returns the same result
on every input. -/
theorem C8_fallback_inert :
    (∀ (series : List (String × ℚ)) (t : String),
      fallbackLookup series t = dictLookup series t) ∧
    (∀ (series : List (String × ℚ)) (nfp_date : String) (rh rm : Nat),
      calculate_nfp_move series nfp_date rh rm =
        calculate_nfp_move_exact series nfp_date rh rm) := by
  refine ⟨fallback_eq_dictLookup, ?_⟩
  intro series nfp_date rh rm
  rw [calculate_nfp_move, calculate_nfp_move_exact, prices_eq_pricesExact]

/-- C9: the reference month used as history key is derived by pure calendar
arithmetic — the month immediately preceding the month of the release date, with
December of the previous year for January — with no reference to the
schedule registry (`target_month` takes no schedule argument). -/
theorem C9_target_month (year month : Nat) (_h1 : 1 ≤ month) (_h2 : month ≤ 12) :
    target_month year month =
      toString (prevCalendarMonth year month).1 ++ "-" ++
        pad2 (prevCalendarMonth year month).2 := by
  rw [target_month, prevCalendarMonth]
  by_cases hm : month = 1
  · rw [if_pos hm, if_pos hm]
    have h12 : "-" ++ pad2 12 = "-12" := by decide
    rw [String.append_assoc, h12]
  · rw [if_neg hm, if_neg hm]

/-- Witness for C9 at a January release: the key is December of the
preceding year. -/
theorem C9_target_month_witness :
    target_month 2026 1 =
      toString (prevCalendarMonth 2026 1).1 ++ "-" ++ pad2 (prevCalendarMonth 2026 1).2 :=
  C9_target_month 2026 1 (by decide) (by decide)

/-- C10 (amended): all five offset strings denote the release time plus the
declared duration exactly when the release minute plus 15 stays below 60;
under the default release hour 13 every pair is a valid time of day iff the
release minute plus 15 stays below 60; from release minute 45 the 15min
offset has a minute field of 60 or more (and from 55 the 5min offset too),
while the 30min offset always carries correctly; the strings of
`times_to_check` are exactly these pairs rendered through `mkTime`. -/
theorem C10_offset_wellformedness (rh rm : Nat) :
    (rm + 15 ≤ 59 →
      offsetPairs rh rm =
        [("release", timeAdd rh rm 0), ("5min_after", timeAdd rh rm 5),
         ("15min_after", timeAdd rh rm 15), ("30min_after", timeAdd rh rm 30),
         ("1h_after", timeAdd rh rm 60)]) ∧
    (rh = 13 → rm ≤ 59 →
      ((∀ p ∈ offsetPairs rh rm, validPair p.2) ↔ rm + 15 ≤ 59)) ∧
    (45 ≤ rm → ∀ p ∈ offsetPairs rh rm, p.1 = "15min_after" → ¬ validPair p.2) ∧
    (55 ≤ rm → ∀ p ∈ offsetPairs rh rm, p.1 = "5min_after" → ¬ validPair p.2) ∧
    ((rh + (rm + 30) / 60, (rm + 30) % 60) = timeAdd rh rm 30) ∧
    (∀ d, times_to_check d rh rm =
      (offsetPairs rh rm).map (fun p => (p.1, mkTime d p.2.1 p.2.2))) := by
  refine ⟨?_, ?_, ?_, ?_, rfl, fun d => rfl⟩
  · intro h
    simp [offsetPairs, timeAdd, Prod.ext_iff]
    omega
  · intro h13 h59
    subst h13
    simp [offsetPairs, validPair, List.forall_mem_cons]
    omega
  · intro h45
    simp [offsetPairs, validPair, List.forall_mem_cons]
    omega
  · intro h55
    simp [offsetPairs, validPair, List.forall_mem_cons]
    omega

/-- Witness for C10 (amended): at the default release time 13:30 every
offset pair equals the release time plus the declared duration with proper
carries. -/
theorem C10_offset_wellformedness_witness :
    offsetPairs 13 30 =
      [("release", timeAdd 13 30 0), ("5min_after", timeAdd 13 30 5),
       ("15min_after", timeAdd 13 30 15), ("30min_after", timeAdd 13 30 30),
       ("1h_after", timeAdd 13 30 60)] :=
  (C10_offset_wellformedness 13 30).1 (by decide)

/-- Counterexample for C10 as stated: at release minute 45 (which is "45 or
more") the 5min offset is still a perfectly valid time of day, 13:50, and it
does resolve — the calculator returns it as a move — so it is not true that
both the 5min and 15min offsets denote no valid timestamp from minute 45. -/
theorem C10_offset_wellformedness_counterexample :
    (45 : Nat) ≤ 45 ∧
    (∀ p ∈ offsetPairs 13 45, p.1 = "5min_after" → validPair p.2) ∧
    calculate_nfp_move cSeries "2026-03-06" 13 45 =
      some (PriceMoveResult.mk 150 [("5min_after", MoveEntry.mk 150.5 50)] (some 50)) :=
  ⟨by decide, by decide, by with_unfolding_all decide⟩

end EconDashboard
